/-
Verification of the Phosys job-orchestration layer against its
natural-language specification.

The definitions below are shallow embeddings of the Python source:
  * `DiarizationProcessor.merge_consecutive_segments`
      (src/domain/voice/diarization.py)
  * `ConnectionManager.send_file_status`
      (src/infra/websocket/connection_manager.py)
  * `ProgressSmoother` and the per-phase progress pattern of
    `PipelineService.execute_transcription`
      (src/application/voice/pipeline_service_funasr.py)
  * `process_single_file`, `stop_transcription`, and the tail of the
    `transcribe` endpoint (src/api/routers/voice_gateway.py)
  * the worker-pool capacity configuration (src/config.py)

Machine integers are modelled as `Int`/`Nat`; Python floats (elapsed
times, durations) as `ℚ`; Python strings as `String`; Python `None` as
`Option`.
-/
import Mathlib

namespace Phosys

/-! ## Transcript segments and `merge_consecutive_segments`

`src/domain/voice/diarization.py`, lines 67-91.  A transcript entry is a
dict with keys `speaker`, `text`, `start_time`, `end_time`; the merge
loop copies the first dict, then for each following entry either extends
the current copy (same speaker: concatenates `text`, replaces
`end_time`) or emits the current copy and starts a new one from a fresh
copy of the entry. -/

structure Segment where
  speaker : String
  text : String
  start_time : ℚ
  end_time : ℚ
deriving DecidableEq, Repr

/-- The loop of `merge_consecutive_segments`: `current` is the mutable
`current_segment` dict, the list argument is the remaining input. -/
def mergeAux (current : Segment) : List Segment → List Segment
  | [] => [current]
  | n :: ns =>
    if n.speaker = current.speaker then
      mergeAux { current with text := current.text ++ n.text, end_time := n.end_time } ns
    else
      current :: mergeAux n ns

/-- Embedding of `DiarizationProcessor.merge_consecutive_segments`
(src/domain/voice/diarization.py:67-91). -/
def merge_consecutive_segments : List Segment → List Segment
  | [] => []
  | s :: ss => mergeAux s ss

/-- Concatenation of the `text` fields of a transcript, in order. -/
def textConcat (l : List Segment) : String :=
  l.foldr (fun s acc => s.text ++ acc) ""

lemma mergeAux_ne_nil (c : Segment) (l : List Segment) : mergeAux c l ≠ [] := by
  induction l generalizing c with
  | nil => simp [mergeAux]
  | cons n ns ih =>
    simp only [mergeAux]
    split
    · exact ih _
    · simp

lemma mergeAux_head_speaker (c : Segment) (l : List Segment) :
    (mergeAux c l).head?.map Segment.speaker = some c.speaker := by
  induction l generalizing c with
  | nil => simp [mergeAux]
  | cons n ns ih =>
    simp only [mergeAux]
    split
    · exact ih _
    · simp

lemma mergeAux_chain (c : Segment) (l : List Segment) :
    List.Chain' (fun a b => a.speaker ≠ b.speaker) (mergeAux c l) := by
  induction l generalizing c with
  | nil => simp [mergeAux]
  | cons n ns ih =>
    simp only [mergeAux]
    split
    · exact ih _
    · rename_i hne
      rw [List.chain'_cons']
      refine ⟨?_, ih n⟩
      intro y hy
      have hhd := mergeAux_head_speaker n ns
      rw [hy] at hhd
      simp only [Option.map_some'] at hhd
      have : y.speaker = n.speaker := by
        injection hhd
      rw [this]
      intro h
      exact hne h.symm

lemma mergeAux_text (c : Segment) (l : List Segment) :
    textConcat (mergeAux c l) = c.text ++ textConcat l := by
  induction l generalizing c with
  | nil => simp [mergeAux, textConcat, String.append_empty]
  | cons n ns ih =>
    simp only [mergeAux]
    split
    · rw [ih]
      simp only [textConcat, List.foldr_cons]
      rw [String.append_assoc]
    · simp only [textConcat, List.foldr_cons] at *
      rw [ih]

/-- C10: for every non-empty transcript list, `merge_consecutive_segments`
returns a non-empty list, no two adjacent output entries share a
`speaker`, and the concatenation of the output `text` fields equals the
concatenation of the input `text` fields.  (The source copies each dict
with `dict(...)` before mutating it, so the operation is a pure function
of the input list, which the embedding reflects.) -/
theorem merge_consecutive_segments_spec (l : List Segment) (h : l ≠ []) :
    merge_consecutive_segments l ≠ [] ∧
    List.Chain' (fun a b => a.speaker ≠ b.speaker) (merge_consecutive_segments l) ∧
    textConcat (merge_consecutive_segments l) = textConcat l := by
  cases l with
  | nil => exact absurd rfl h
  | cons s ss =>
    refine ⟨mergeAux_ne_nil s ss, mergeAux_chain s ss, ?_⟩
    simp only [merge_consecutive_segments]
    rw [mergeAux_text]
    simp [textConcat]

/-- Witness for C10 at a concrete two-entry transcript. -/
theorem merge_consecutive_segments_spec_witness :
    merge_consecutive_segments
        [⟨"A", "hi", 0, 1⟩, ⟨"A", "there", 1, 2⟩, ⟨"B", "yo", 2, 3⟩] ≠ [] ∧
    List.Chain' (fun a b => a.speaker ≠ b.speaker)
      (merge_consecutive_segments
        [⟨"A", "hi", 0, 1⟩, ⟨"A", "there", 1, 2⟩, ⟨"B", "yo", 2, 3⟩]) ∧
    textConcat (merge_consecutive_segments
        [⟨"A", "hi", 0, 1⟩, ⟨"A", "there", 1, 2⟩, ⟨"B", "yo", 2, 3⟩]) =
      textConcat [⟨"A", "hi", 0, 1⟩, ⟨"A", "there", 1, 2⟩, ⟨"B", "yo", 2, 3⟩] :=
  merge_consecutive_segments_spec _ (by decide)

/-! ## Status hub deduplication: `ConnectionManager.send_file_status`

`src/infra/websocket/connection_manager.py`, lines 79-123.  The dedup
state for one file id is the pair of `last_progress[file_id]` and
`last_status[file_id]` entries (`none` when the key is absent; the
source reads them with defaults `-1` and `""`).  The function returns
the updated state together with `true` when the update is broadcast
and `false` when it is suppressed. -/

structure FileStatusState where
  last_progress : Option Int
  last_status : Option String
deriving DecidableEq, Repr

/-- Embedding of `ConnectionManager.send_file_status` for a single file id
(src/infra/websocket/connection_manager.py:79-123): the dedup decision,
the update of the last-seen records, and the release of those records
after a final status. -/
def send_file_status (st : FileStatusState) (status : String) (progress : Int) :
    FileStatusState × Bool :=
  let lastP := st.last_progress.getD (-1)
  let lastS := st.last_status.getD ""
  let progress_increased := progress > lastP
  let status_changed := status ≠ lastS
  let is_final := status = "completed" ∨ status = "error" ∨ status = "deleted"
  if ¬progress_increased ∧ ¬status_changed ∧ ¬is_final then
    (st, false)
  else
    if status = "completed" ∨ status = "error" ∨ status = "deleted" then
      (⟨none, none⟩, true)
    else
      (⟨some progress, some status⟩, true)

/-- C3 counterexample: the claim's terminal set is
`completed / failed / cancelled`, but the source uses
`completed / error / deleted`.  A publish with status `"cancelled"`,
unchanged from the last published status and with non-increasing
progress, is suppressed by the code, while the claim requires it to be
delivered (and the per-id records to be released). -/
theorem send_file_status_cancelled_suppressed :
    send_file_status ⟨some 50, some "cancelled"⟩ "cancelled" 50 =
      (⟨some 50, some "cancelled"⟩, false) := by
  decide

/-- C3 (amended): a publish through the hub is suppressed (returning the
state unchanged) exactly when the progress is not strictly greater than
the last published progress, the status equals the last published
status, and the status is not one of the code's final values
`completed / error / deleted`; a delivered final publish releases the
per-id records, and a delivered non-final publish records the new
progress and status. -/
theorem send_file_status_spec (st : FileStatusState) (status : String) (progress : Int) :
    ((send_file_status st status progress).2 = false ↔
      (¬progress > st.last_progress.getD (-1) ∧ status = st.last_status.getD "" ∧
        ¬(status = "completed" ∨ status = "error" ∨ status = "deleted"))) ∧
    ((send_file_status st status progress).2 = false →
      (send_file_status st status progress).1 = st) ∧
    ((send_file_status st status progress).2 = true →
      (status = "completed" ∨ status = "error" ∨ status = "deleted") →
      (send_file_status st status progress).1 = ⟨none, none⟩) ∧
    ((send_file_status st status progress).2 = true →
      ¬(status = "completed" ∨ status = "error" ∨ status = "deleted") →
      (send_file_status st status progress).1 = ⟨some progress, some status⟩) := by
  unfold send_file_status
  by_cases hfin : status = "completed" ∨ status = "error" ∨ status = "deleted"
  · by_cases hp : progress > st.last_progress.getD (-1) <;>
      by_cases hs : status = st.last_status.getD "" <;>
      simp_all
  · by_cases hp : progress > st.last_progress.getD (-1) <;>
      by_cases hs : status = st.last_status.getD "" <;>
      simp_all

/-- Witness for C3 (amended) at a concrete state: a repeated
non-final publish is suppressed and leaves the state unchanged. -/
theorem send_file_status_spec_witness :
    (((send_file_status ⟨some 40, some "processing"⟩ "processing" 40).2 = false ↔
      (¬(40 : Int) > (FileStatusState.mk (some 40) (some "processing")).last_progress.getD (-1) ∧
        "processing" = (FileStatusState.mk (some 40) (some "processing")).last_status.getD "" ∧
        ¬("processing" = "completed" ∨ "processing" = "error" ∨ "processing" = "deleted"))) ∧
    ((send_file_status ⟨some 40, some "processing"⟩ "processing" 40).2 = false →
      (send_file_status ⟨some 40, some "processing"⟩ "processing" 40).1 =
        ⟨some 40, some "processing"⟩) ∧
    ((send_file_status ⟨some 40, some "processing"⟩ "processing" 40).2 = true →
      ("processing" = "completed" ∨ "processing" = "error" ∨ "processing" = "deleted") →
      (send_file_status ⟨some 40, some "processing"⟩ "processing" 40).1 = ⟨none, none⟩) ∧
    ((send_file_status ⟨some 40, some "processing"⟩ "processing" 40).2 = true →
      ¬("processing" = "completed" ∨ "processing" = "error" ∨ "processing" = "deleted") →
      (send_file_status ⟨some 40, some "processing"⟩ "processing" 40).1 =
        ⟨some 40, some "processing"⟩)) :=
  send_file_status_spec ⟨some 40, some "processing"⟩ "processing" 40

/-! ## `ProgressSmoother`

`src/application/voice/pipeline_service_funasr.py`, lines 24-102.
Elapsed times and durations are Python floats, modelled as `ℚ`;
`estimated_duration` may be `None`, modelled as `Option ℚ`.  A run of
the background thread `_smooth_progress` is modelled by the list of
`elapsed` values it observes at its successive loop iterations (the
list ends when `stop_flag` is set). -/

/-- Python `int(...)` truncation toward zero. -/
def pyInt (q : ℚ) : Int :=
  if 0 ≤ q then ⌊q⌋ else ⌈q⌉

/-- One loop iteration of `ProgressSmoother._smooth_progress`
(pipeline_service_funasr.py:73-89): the clamped `current_progress`
computed from the elapsed time.  The first branch is taken when
`estimated_duration` is truthy and positive; otherwise the fallback
branch uses `estimated_duration or 10.0` (so `None` and `0` become
`10.0`, a negative value stays itself). -/
def smootherTick (start_p end_p : Int) (est : Option ℚ) (elapsed : ℚ) : Int :=
  let range : Int := end_p - start_p
  let current : Int :=
    match est with
    | some d =>
      if 0 < d then
        pyInt ((start_p : ℚ) + (range : ℚ) * min (elapsed / d) (99 / 100))
      else
        let dOr : ℚ := if d = 0 then 10 else d
        let ips : ℚ := (range : ℚ) / max dOr 1
        min (start_p + pyInt (elapsed * ips)) (end_p - 1)
    | none =>
      let ips : ℚ := (range : ℚ) / max (10 : ℚ) 1
      min (start_p + pyInt (elapsed * ips)) (end_p - 1)
  max start_p (min current (end_p - 1))

/-- The emission loop of `_smooth_progress`
(pipeline_service_funasr.py:73-102): given the remaining elapsed-time
observations and the `last_progress` value, the list of progress values
passed to the callback.  A tick emits only when its clamped progress
strictly exceeds `last_progress`, and the loop breaks once the clamped
progress reaches `end_progress - 1`. -/
def smoothEmits (start_p end_p : Int) (est : Option ℚ) : List ℚ → Int → List Int
  | [], _ => []
  | t :: ts, last =>
    let c := smootherTick start_p end_p est t
    if last < c then
      c :: (if end_p - 1 ≤ c then [] else smoothEmits start_p end_p est ts c)
    else
      (if end_p - 1 ≤ c then [] else smoothEmits start_p end_p est ts last)

/-- A full run of the smoother after `ProgressSmoother.start`, which
resets `last_progress` to `start_progress - 1`
(pipeline_service_funasr.py:51-61). -/
def smootherRun (start_p end_p : Int) (est : Option ℚ) (ticks : List ℚ) : List Int :=
  smoothEmits start_p end_p est ticks (start_p - 1)

lemma smootherTick_le (start_p end_p : Int) (est : Option ℚ) (elapsed : ℚ) :
    smootherTick start_p end_p est elapsed ≤ max start_p (end_p - 1) :=
  max_le_max_left _ (min_le_right _ _)

lemma smoothEmits_mem (start_p end_p : Int) (est : Option ℚ) :
    ∀ (ts : List ℚ) (last : Int), ∀ x ∈ smoothEmits start_p end_p est ts last,
      last < x ∧ x ≤ max start_p (end_p - 1) := by
  intro ts
  induction ts with
  | nil => intro last x hx; simp [smoothEmits] at hx
  | cons t ts ih =>
    intro last x hx
    simp only [smoothEmits] at hx
    split at hx
    · rename_i hlt
      rcases List.mem_cons.mp hx with hx | hx
      · exact hx ▸ ⟨hlt, smootherTick_le start_p end_p est t⟩
      · split at hx
        · simp at hx
        · obtain ⟨h1, h2⟩ := ih _ x hx
          exact ⟨lt_trans hlt h1, h2⟩
    · split at hx
      · simp at hx
      · exact ih _ x hx

lemma smoothEmits_chain (start_p end_p : Int) (est : Option ℚ) :
    ∀ (ts : List ℚ) (last : Int),
      List.Chain' (fun a b => a < b) (smoothEmits start_p end_p est ts last) := by
  intro ts
  induction ts with
  | nil => intro last; simp [smoothEmits]
  | cons t ts ih =>
    intro last
    simp only [smoothEmits]
    split
    · rw [List.chain'_cons']
      constructor
      · intro y hy
        split at hy
        · simp at hy
        · rename_i hbr
          have := smoothEmits_mem start_p end_p est ts _ y (List.mem_of_mem_head? hy)
          exact this.1
      · split
        · simp
        · exact ih _
    · split
      · simp
      · exact ih _

lemma smootherRun_le (start_p end_p : Int) (est : Option ℚ) (ticks : List ℚ)
    (h : start_p < end_p) :
    ∀ x ∈ smootherRun start_p end_p est ticks, x ≤ end_p - 1 := by
  intro x hx
  have := (smoothEmits_mem start_p end_p est ticks _ x hx).2
  have hsp : start_p ≤ end_p - 1 := by omega
  rwa [max_eq_right hsp] at this

/-- C5: for a phase with `start_progress < end_progress`, the background
smoother on its own never emits a value above `end_progress - 1`, and
the values it passes to the callback are strictly increasing (a tick
whose clamped progress does not exceed the last emitted value triggers
no callback). -/
theorem smootherRun_spec (start_p end_p : Int) (est : Option ℚ) (ticks : List ℚ)
    (h : start_p < end_p) :
    (∀ x ∈ smootherRun start_p end_p est ticks, x ≤ end_p - 1) ∧
    List.Chain' (fun a b => a < b) (smootherRun start_p end_p est ticks) :=
  ⟨smootherRun_le start_p end_p est ticks h, smoothEmits_chain start_p end_p est ticks _⟩

/-- Witness for C5: the first phase of `execute_transcription`
(`0% → 10%`, estimated duration 2 s) observed at elapsed times 0 s and
1 s. -/
theorem smootherRun_spec_witness :
    (∀ x ∈ smootherRun 0 10 (some 2) [0, 1], x ≤ 9) ∧
    List.Chain' (fun a b => a < b) (smootherRun 0 10 (some 2) [0, 1]) :=
  smootherRun_spec 0 10 (some 2) [0, 1] (by decide)

/-! ## Per-phase progress pattern of `execute_transcription`

Each phase of `PipelineService.execute_transcription`
(pipeline_service_funasr.py:183-339) follows one pattern: start a
`ProgressSmoother`, do the phase's work, then `self._stop_smoother()`
(lines 134-138) followed by a single
`self._update_status(step, endPct, message)` call at the phase's end
percentage.  `_update_status` (lines 140-154) invokes the callback
unconditionally, so completing a phase contributes exactly one
notification, carrying `endPct`. -/

/-- The complete emission sequence of one phase: the smoother's
emissions followed by the single completion update at `end_p`. -/
def phaseRun (start_p end_p : Int) (est : Option ℚ) (ticks : List ℚ) : List Int :=
  smootherRun start_p end_p est ticks ++ [end_p]

/-- C4 counterexample: completing the first phase (`0% → 10%`)
immediately after starting it (no smoother ticks) advances the displayed
progress by ten units but emits a single notification, not one per unit
as the claim requires. -/
theorem phaseRun_counterexample :
    phaseRun 0 10 (some 2) [] = [10] ∧ (phaseRun 0 10 (some 2) []).length ≠ 10 := by
  constructor
  · rfl
  · decide

/-- C4 (amended): completing a phase always leaves the displayed
progress exactly at the phase's `endPct` — the last emitted value is
`endPct`, even with zero elapsed ticks — but the catch-up is a single
notification carrying `endPct` (for `startPct < endPct`, `endPct`
occurs exactly once in the phase's emission sequence), not one
notification per unit advanced. -/
theorem phaseRun_spec (start_p end_p : Int) (est : Option ℚ) (ticks : List ℚ)
    (h : start_p < end_p) :
    (phaseRun start_p end_p est ticks).getLast? = some end_p ∧
    (phaseRun start_p end_p est ticks).count end_p = 1 := by
  constructor
  · simp [phaseRun]
  · rw [phaseRun, List.count_append]
    have h0 : (smootherRun start_p end_p est ticks).count end_p = 0 := by
      rw [List.count_eq_zero]
      intro hmem
      have := smootherRun_le start_p end_p est ticks h end_p hmem
      omega
    simp [h0, List.count_singleton]

/-- Witness for C4 (amended) at the first phase with a single tick. -/
theorem phaseRun_spec_witness :
    (phaseRun 0 10 (some 2) [0]).getLast? = some 10 ∧
    (phaseRun 0 10 (some 2) [0]).count 10 = 1 :=
  phaseRun_spec 0 10 (some 2) [0] (by decide)

/-! ## Gateway worker body and cancel endpoint

`src/api/routers/voice_gateway.py`.  A file record (the `file_info`
dict) carries a `status` string (`uploaded / processing / completed /
error / deleted`), an integer `progress`, and an optional
`error_message`.  The `_cancelled` flag is written by the cancel
endpoint on another thread while the worker is running, so the worker's
successive reads of it are modelled as a function `flagAt` from the
read's index (in program order inside `process_single_file`) to the
value observed: index 0 is the read at line 1498, index 1 the read at
line 1525, index 2 the read after `execute_transcription` returns or
raises (lines 1541 and 1626). -/

structure FileInfo where
  status : String
  progress : Int
  error_message : Option String
deriving DecidableEq, Repr

/-- The outcome of the `pipeline_service.execute_transcription` call as
seen by `process_single_file`: a returned transcript tuple (whose first
component is `None` on internal failure), an `InterruptedError`, or any
other exception. -/
inductive PipelineOutcome where
  | returns (transcript : Option (List Segment))
  | interrupted
  | raises (msg : String)
deriving DecidableEq, Repr

/-- Embedding of `process_single_file` (voice_gateway.py:1492-1659): the final file
record and whether `pipeline_service.execute_transcription` was
invoked. -/
def process_single_file (f : FileInfo) (flagAt : Nat → Bool) (outcome : PipelineOutcome) :
    FileInfo × Bool :=
  if flagAt 0 then
    ({ f with status := "uploaded", progress := 0 }, false)
  else if flagAt 1 then
    ({ f with status := "uploaded", progress := 0 }, false)
  else
    match outcome with
    | .interrupted =>
      ({ f with status := "uploaded", progress := 0, error_message := some "转写已停止" }, true)
    | .raises msg =>
      if flagAt 2 then
        ({ f with status := "uploaded", progress := 0, error_message := some "转写已停止" }, true)
      else
        ({ f with status := "error", error_message := some msg }, true)
    | .returns t =>
      if flagAt 2 then
        ({ f with status := "uploaded", progress := 0, error_message := some "转写已停止" }, true)
      else
        match t with
        | some tr =>
          if tr.isEmpty then
            ({ f with status := "error", error_message := some "转写失败" }, true)
          else
            ({ f with status := "completed", progress := 100 }, true)
        | none =>
          ({ f with status := "error", error_message := some "转写失败" }, true)

/-- The state touched by the cancel endpoint: the file record, its
`_cancelled` flag, and whether the file id still maps to a `Future` in
`transcription_tasks`. -/
structure GatewayState where
  file : FileInfo
  cancelled : Bool
  taskPresent : Bool
deriving DecidableEq, Repr

/-- Embedding of `stop_transcription` (voice_gateway.py:1730-1778) for an existing
file: refuses unless the file is `processing`; otherwise sets the
`_cancelled` flag, drops the task handle, resets the record to
`uploaded` with progress 0, and reports success. -/
def stop_transcription (g : GatewayState) : GatewayState × Bool :=
  if g.file.status = "processing" then
    ({ file := { g.file with
                  status := "uploaded"
                  progress := 0
                  error_message := some "转写已停止" }
       cancelled := true
       taskPresent := false }, true)
  else
    (g, false)

/-- C1 counterexample: a worker run aborted by `InterruptedError` (the
cancellation signal) records status `"uploaded"`, not `"cancelled"` as
the claim states. -/
theorem cancellation_status_not_cancelled :
    (process_single_file ⟨"processing", 50, none⟩ (fun _ => false)
        PipelineOutcome.interrupted).1.status = "uploaded" ∧
    (process_single_file ⟨"processing", 50, none⟩ (fun _ => false)
        PipelineOutcome.interrupted).1.status ≠ "cancelled" := by
  decide

/-- C1 (amended): every cancellation-abort path — the
`InterruptedError` handler, any worker path that observes the
cancellation flag, and the cancel endpoint's own status write — records
status `"uploaded"` (the code's representation of a cancelled job),
never `"error"`. -/
theorem cancellation_abort_status (f : FileInfo) (flagAt : Nat → Bool)
    (outcome : PipelineOutcome)
    (h : outcome = PipelineOutcome.interrupted ∨
         flagAt 0 = true ∨ flagAt 1 = true ∨ flagAt 2 = true)
    (g : GatewayState) (hg : g.file.status = "processing") :
    (process_single_file f flagAt outcome).1.status = "uploaded" ∧
    (process_single_file f flagAt outcome).1.status ≠ "error" ∧
    (stop_transcription g).1.file.status = "uploaded" ∧
    (stop_transcription g).1.file.status ≠ "error" := by
  have hp : (process_single_file f flagAt outcome).1.status = "uploaded" := by
    unfold process_single_file
    rcases h with h | h | h | h
    · subst h
      cases hb0 : flagAt 0 <;> cases hb1 : flagAt 1 <;> simp [hb0, hb1]
    · simp [h]
    · cases hb0 : flagAt 0 <;> cases outcome <;> simp [hb0, h]
    · cases hb0 : flagAt 0 <;> cases hb1 : flagAt 1 <;> cases outcome <;>
        simp [hb0, hb1, h]
  have hs : (stop_transcription g).1.file.status = "uploaded" := by
    unfold stop_transcription
    simp [hg]
  refine ⟨hp, ?_, hs, ?_⟩
  · rw [hp]; decide
  · rw [hs]; decide

/-- Witness for C1 (amended): an interrupted run with the flag never
observed, and a cancel call on a processing file. -/
theorem cancellation_abort_status_witness :
    (process_single_file ⟨"processing", 50, none⟩ (fun _ => false)
        PipelineOutcome.interrupted).1.status = "uploaded" ∧
    (process_single_file ⟨"processing", 50, none⟩ (fun _ => false)
        PipelineOutcome.interrupted).1.status ≠ "error" ∧
    (stop_transcription ⟨⟨"processing", 50, none⟩, false, true⟩).1.file.status = "uploaded" ∧
    (stop_transcription ⟨⟨"processing", 50, none⟩, false, true⟩).1.file.status ≠ "error" :=
  cancellation_abort_status ⟨"processing", 50, none⟩ (fun _ => false)
    PipelineOutcome.interrupted (Or.inl rfl)
    ⟨⟨"processing", 50, none⟩, false, true⟩ rfl

/-- C2 counterexample: with the cancellation flag already set before the
worker body starts, execution is suppressed but the recorded status is
`"uploaded"`, not `"cancelled"` as the claim states. -/
theorem cancel_before_start_not_cancelled :
    (process_single_file ⟨"processing", 0, none⟩ (fun _ => true)
        (PipelineOutcome.returns none)).2 = false ∧
    (process_single_file ⟨"processing", 0, none⟩ (fun _ => true)
        (PipelineOutcome.returns none)).1.status ≠ "cancelled" := by
  decide

/-- C2 (amended): if the cancellation flag is observed as set at the
worker body's first checkpoint, `execute_transcription` is never
invoked and the record is reset to status `"uploaded"` (the code's
representation of a cancelled job) with progress 0. -/
theorem cancel_before_start_suppresses (f : FileInfo) (flagAt : Nat → Bool)
    (outcome : PipelineOutcome) (h : flagAt 0 = true) :
    (process_single_file f flagAt outcome).2 = false ∧
    (process_single_file f flagAt outcome).1.status = "uploaded" ∧
    (process_single_file f flagAt outcome).1.progress = 0 := by
  unfold process_single_file
  simp [h]

/-- Witness for C2 (amended) at a concrete record with the flag set. -/
theorem cancel_before_start_suppresses_witness :
    (process_single_file ⟨"processing", 0, none⟩ (fun _ => true)
        (PipelineOutcome.returns (some [⟨"A", "hi", 0, 1⟩]))).2 = false ∧
    (process_single_file ⟨"processing", 0, none⟩ (fun _ => true)
        (PipelineOutcome.returns (some [⟨"A", "hi", 0, 1⟩]))).1.status = "uploaded" ∧
    (process_single_file ⟨"processing", 0, none⟩ (fun _ => true)
        (PipelineOutcome.returns (some [⟨"A", "hi", 0, 1⟩]))).1.progress = 0 :=
  cancel_before_start_suppresses ⟨"processing", 0, none⟩ (fun _ => true)
    (PipelineOutcome.returns (some [⟨"A", "hi", 0, 1⟩])) rfl

/-- C9: a first cancel on a `processing` file succeeds; a second cancel
immediately after returns `false` and changes nothing (the record
undergoes exactly one transition out of `processing`), and cancel on a
file already in a terminal state (`completed` or `error`) is a no-op
returning `false`. -/
theorem stop_transcription_idempotent (g : GatewayState)
    (h : g.file.status = "processing")
    (g' : GatewayState)
    (h' : g'.file.status = "completed" ∨ g'.file.status = "error") :
    (stop_transcription g).2 = true ∧
    (stop_transcription (stop_transcription g).1).2 = false ∧
    (stop_transcription (stop_transcription g).1).1 = (stop_transcription g).1 ∧
    stop_transcription g' = (g', false) := by
  unfold stop_transcription
  rcases h' with h' | h' <;> simp_all

/-- Witness for C9 at concrete processing and completed records. -/
theorem stop_transcription_idempotent_witness :
    (stop_transcription ⟨⟨"processing", 30, none⟩, false, true⟩).2 = true ∧
    (stop_transcription
        (stop_transcription ⟨⟨"processing", 30, none⟩, false, true⟩).1).2 = false ∧
    (stop_transcription
        (stop_transcription ⟨⟨"processing", 30, none⟩, false, true⟩).1).1 =
      (stop_transcription ⟨⟨"processing", 30, none⟩, false, true⟩).1 ∧
    stop_transcription ⟨⟨"completed", 100, none⟩, false, false⟩ =
      (⟨⟨"completed", 100, none⟩, false, false⟩, false) :=
  stop_transcription_idempotent ⟨⟨"processing", 30, none⟩, false, true⟩ rfl
    ⟨⟨"completed", 100, none⟩, false, false⟩ (Or.inl rfl)

/-! ## Terminal paths and cleanup in `execute_transcription`

`src/application/voice/pipeline_service_funasr.py`, lines 183-339.  The
control flow is driven by: the successive reads of the cancellation
flag at the `check_cancelled()` checkpoints (modelled as `flagAt`,
indexed in program order: 0 = line 184, 1 = line 189, 2 = line 209,
3 = line 214, 4 = line 230, 5 = line 249, 6 = line 260, 7 = line 281,
8.. = the per-entry checks of the text loop at line 294, and one final
index for line 302); the result of `prepare_audio_bytes` (`none` when
it returns a `None` byte stream, line 204); whether the ASR collaborator
call raises an exception; and the transcript list it returns.
`storage.cleanup_temp_files(instance_id)` is called at line 313 on the
success path, at line 328 in the `InterruptedError` handler, and at
line 337 in the generic exception handler — but on the two early
`return None, None, None` paths (audio preparation failed, line 207;
empty transcript, line 254) the function returns without calling it. -/

inductive ExecResult where
  | success
  | audioFailed
  | asrEmpty
  | cancelled
  | errorResult
deriving DecidableEq, Repr

structure ExecTrace where
  result : ExecResult
  cleanupCalled : Bool
deriving DecidableEq, Repr

/-- The terminal path taken by `PipelineService.execute_transcription`
(pipeline_service_funasr.py:183-339) and whether
`storage.cleanup_temp_files` was invoked before it returned or
re-raised. -/
def execute_transcription_trace (flagAt : Nat → Bool) (audioPrep : Option ℚ)
    (asrRaises : Bool) (asr : List Segment) : ExecTrace :=
  if flagAt 0 then ⟨.cancelled, true⟩
  else if flagAt 1 then ⟨.cancelled, true⟩
  else
    match audioPrep with
    | none => ⟨.audioFailed, false⟩
    | some _ =>
      if flagAt 2 then ⟨.cancelled, true⟩
      else if flagAt 3 then ⟨.cancelled, true⟩
      else if flagAt 4 then ⟨.cancelled, true⟩
      else if asrRaises then ⟨.errorResult, true⟩
      else if flagAt 5 then ⟨.cancelled, true⟩
      else if asr.isEmpty then ⟨.asrEmpty, false⟩
      else if flagAt 6 then ⟨.cancelled, true⟩
      else if flagAt 7 then ⟨.cancelled, true⟩
      else if (List.range (merge_consecutive_segments asr).length).any
                (fun i => flagAt (8 + i)) then ⟨.cancelled, true⟩
      else if flagAt (8 + (merge_consecutive_segments asr).length) then ⟨.cancelled, true⟩
      else ⟨.success, true⟩

/-- Exhaustive case analysis of the terminal paths of
`execute_transcription`: every run is a cancellation (cleanup invoked),
an audio-preparation failure (no cleanup), a raised-exception failure
(cleanup invoked), an empty-transcript failure (no cleanup), or a
success (cleanup invoked). -/
lemma execute_transcription_trace_mem (flagAt : Nat → Bool) (audioPrep : Option ℚ)
    (asrRaises : Bool) (asr : List Segment) :
    execute_transcription_trace flagAt audioPrep asrRaises asr =
        ⟨ExecResult.cancelled, true⟩ ∨
    execute_transcription_trace flagAt audioPrep asrRaises asr =
        ⟨ExecResult.audioFailed, false⟩ ∨
    execute_transcription_trace flagAt audioPrep asrRaises asr =
        ⟨ExecResult.errorResult, true⟩ ∨
    execute_transcription_trace flagAt audioPrep asrRaises asr =
        ⟨ExecResult.asrEmpty, false⟩ ∨
    execute_transcription_trace flagAt audioPrep asrRaises asr =
        ⟨ExecResult.success, true⟩ := by
  unfold execute_transcription_trace
  by_cases h0 : flagAt 0 = true
  · rw [if_pos h0]; simp
  rw [if_neg h0]
  by_cases h1 : flagAt 1 = true
  · rw [if_pos h1]; simp
  rw [if_neg h1]
  cases audioPrep with
  | none => simp
  | some d =>
    by_cases h2 : flagAt 2 = true
    · rw [if_pos h2]; simp
    rw [if_neg h2]
    by_cases h3 : flagAt 3 = true
    · rw [if_pos h3]; simp
    rw [if_neg h3]
    by_cases h4 : flagAt 4 = true
    · rw [if_pos h4]; simp
    rw [if_neg h4]
    by_cases h5 : asrRaises = true
    · rw [if_pos h5]; simp
    rw [if_neg h5]
    by_cases h6 : flagAt 5 = true
    · rw [if_pos h6]; simp
    rw [if_neg h6]
    by_cases h7 : asr.isEmpty = true
    · rw [if_pos h7]; simp
    rw [if_neg h7]
    by_cases h8 : flagAt 6 = true
    · rw [if_pos h8]; simp
    rw [if_neg h8]
    by_cases h9 : flagAt 7 = true
    · rw [if_pos h9]; simp
    rw [if_neg h9]
    by_cases h10 : ((List.range (merge_consecutive_segments asr).length).any
        (fun i => flagAt (8 + i))) = true
    · rw [if_pos h10]; simp
    rw [if_neg h10]
    by_cases h11 : flagAt (8 + (merge_consecutive_segments asr).length) = true
    · rw [if_pos h11]; simp
    rw [if_neg h11]
    simp

/-- C6 counterexample: when audio preparation fails,
`execute_transcription` takes a processing-failure terminal path
(returning `None, None, None`) without invoking the cleanup
collaborator. -/
theorem cleanup_skipped_on_audio_failure :
    execute_transcription_trace (fun _ => false) none false [] =
      ⟨ExecResult.audioFailed, false⟩ := by
  decide

/-- C6 (amended): the cleanup collaborator is invoked on the success
path, on every cancellation path, and on the raised-exception failure
path, but not on the two early-return failure paths (audio preparation
returning no bytes, and an empty transcript from the ASR
collaborator). -/
theorem execute_transcription_cleanup (flagAt : Nat → Bool) (audioPrep : Option ℚ)
    (asrRaises : Bool) (asr : List Segment) :
    ((execute_transcription_trace flagAt audioPrep asrRaises asr).result = ExecResult.success ∨
     (execute_transcription_trace flagAt audioPrep asrRaises asr).result = ExecResult.cancelled ∨
     (execute_transcription_trace flagAt audioPrep asrRaises asr).result = ExecResult.errorResult →
      (execute_transcription_trace flagAt audioPrep asrRaises asr).cleanupCalled = true) ∧
    ((execute_transcription_trace flagAt audioPrep asrRaises asr).result = ExecResult.audioFailed ∨
     (execute_transcription_trace flagAt audioPrep asrRaises asr).result = ExecResult.asrEmpty →
      (execute_transcription_trace flagAt audioPrep asrRaises asr).cleanupCalled = false) := by
  rcases execute_transcription_trace_mem flagAt audioPrep asrRaises asr
    with hc | hc | hc | hc | hc <;> rw [hc] <;> exact ⟨by simp, by simp⟩

/-- Witness for C6 (amended): an uncancelled run with prepared audio and
a non-empty transcript succeeds with cleanup invoked. -/
theorem execute_transcription_cleanup_witness :
    ((execute_transcription_trace (fun _ => false) (some 1) false
          [⟨"A", "hi", 0, 1⟩]).result = ExecResult.success ∨
     (execute_transcription_trace (fun _ => false) (some 1) false
          [⟨"A", "hi", 0, 1⟩]).result = ExecResult.cancelled ∨
     (execute_transcription_trace (fun _ => false) (some 1) false
          [⟨"A", "hi", 0, 1⟩]).result = ExecResult.errorResult →
      (execute_transcription_trace (fun _ => false) (some 1) false
          [⟨"A", "hi", 0, 1⟩]).cleanupCalled = true) ∧
    ((execute_transcription_trace (fun _ => false) (some 1) false
          [⟨"A", "hi", 0, 1⟩]).result = ExecResult.audioFailed ∨
     (execute_transcription_trace (fun _ => false) (some 1) false
          [⟨"A", "hi", 0, 1⟩]).result = ExecResult.asrEmpty →
      (execute_transcription_trace (fun _ => false) (some 1) false
          [⟨"A", "hi", 0, 1⟩]).cleanupCalled = false) :=
  execute_transcription_cleanup (fun _ => false) (some 1) false [⟨"A", "hi", 0, 1⟩]

/-! ## The tail of the `transcribe` endpoint

`src/api/routers/voice_gateway.py`, lines 1450-1454 and 1677-1727.
After enqueuing the jobs on the thread pool, the endpoint reads
`wait_until_complete = body.get('wait', True)`; when it is true it
enters a polling loop that scans each pending file's status every
round and calls `time.sleep(0.5)` between rounds until every file is
`completed` or `error` or the deadline elapses.  A round of the loop is
one pass over `futures`; the deadline is modelled as the number of
polling rounds it permits (`fuel`), the concurrently-updated file
statuses as a function `statusAt` from round index and file id to the
status observed, and each blocking `time.sleep(0.5)` as one unit in the
returned sleep count. -/

/-- The responses the endpoint tail can produce: the non-blocking
"转写已开始" reply, the all-completed reply, and the timeout reply with
its partitioned id sets (voice_gateway.py:1704-1727). -/
inductive TranscribeReply where
  | started (file_ids : List String)
  | allDone (file_ids : List String)
  | timedOut (completed failed pending : List String)
deriving DecidableEq, Repr

/-- The polling loop of the `wait_until_complete` branch
(voice_gateway.py:1686-1702), returning the number of `time.sleep`
calls together with the completed / failed / pending id sets. -/
def pollLoop (statusAt : Nat → String → String) :
    Nat → Nat → List String → List String → List String →
    Nat × List String × List String × List String
  | _, 0, pending, comp, fail => (0, comp, fail, pending)
  | round, fuel + 1, pending, comp, fail =>
    if pending.isEmpty then (0, comp, fail, pending)
    else
      let comp' := comp ++ pending.filter (fun fid => statusAt round fid = "completed")
      let fail' := fail ++ pending.filter (fun fid => statusAt round fid = "error")
      let pending' := pending.filter
        (fun fid => ¬(statusAt round fid = "completed" ∨ statusAt round fid = "error"))
      if pending'.isEmpty then (0, comp', fail', pending')
      else
        let rest := pollLoop statusAt (round + 1) fuel pending' comp' fail'
        (rest.1 + 1, rest.2)

/-- The tail of the `transcribe` endpoint after the jobs are enqueued
(voice_gateway.py:1677-1727): the number of blocking sleeps performed
before replying, and the reply.  `bodyWait` is the request's `wait`
field (`none` when absent; the source defaults it to `True`). -/
def transcribeTail (bodyWait : Option Bool) (fuel : Nat)
    (statusAt : Nat → String → String) (ids : List String) : Nat × TranscribeReply :=
  if bodyWait.getD true then
    let r := pollLoop statusAt 0 fuel ids [] []
    if r.2.2.2.isEmpty then (r.1, .allDone r.2.1)
    else (r.1, .timedOut r.2.1 r.2.2.1 r.2.2.2)
  else
    (0, .started ids)

/-- C7 counterexample: with the `wait` field absent (the source defaults
it to `True`) and a job that is still `processing` at every poll, the
endpoint performs blocking sleeps before replying — the submission does
not return immediately. -/
theorem transcribe_blocks_by_default :
    (transcribeTail none 3 (fun _ _ => "processing") ["f1"]).1 = 3 ∧ (3 : Nat) ≠ 0 := by
  decide

/-- C7 (amended): the `transcribe` endpoint returns immediately after
enqueuing — performing no blocking sleep — exactly when the request
sets `wait` to `false`; by default (`wait` absent or `true`) it polls
the jobs' statuses, sleeping between rounds, until all jobs are
terminal or the timeout elapses. -/
theorem transcribeTail_nowait_immediate (fuel : Nat)
    (statusAt : Nat → String → String) (ids : List String) :
    transcribeTail (some false) fuel statusAt ids = (0, TranscribeReply.started ids) := by
  rfl

/-! ## Worker-pool capacity

`TRANSCRIPTION_THREAD_POOL` (voice_gateway.py:133-138) is a
`concurrent.futures.ThreadPoolExecutor` created with
`max_workers=CONCURRENCY_CONFIG.get('transcription_workers', 5)`;
`CONCURRENCY_CONFIG` (src/config.py:86-110) sets
`transcription_workers` to 12.  The executor itself is library code,
modelled here by its documented contract: a submitted task begins
executing only when fewer than `max_workers` tasks are currently
executing, and otherwise waits in FIFO order; a running task may
finish.  The state is the queue of submitted-but-not-started jobs
together with the set of running jobs. -/

/-- The integer-valued entries of `CONCURRENCY_CONFIG`
(src/config.py:86-110). -/
def CONCURRENCY_CONFIG : List (String × Nat) :=
  [("asr_pool_size", 6), ("diarization_pool_size", 0),
   ("transcription_workers", 12), ("max_queue_size", 100),
   ("max_memory_mb", 8192), ("memory_check_interval", 30),
   ("task_timeout", 3600), ("model_acquire_timeout", 60)]

/-- Python `CONCURRENCY_CONFIG.get(key, default)`. -/
def configGet (key : String) (default : Nat) : Nat :=
  ((CONCURRENCY_CONFIG.lookup key).getD default)

/-- The `max_workers` value of `TRANSCRIPTION_THREAD_POOL`
(voice_gateway.py:135-138). -/
def transcription_workers : Nat := configGet "transcription_workers" 5

structure PoolState where
  queued : List String
  running : List String
deriving DecidableEq, Repr

/-- One scheduling step of a `ThreadPoolExecutor` with capacity `W`:
the head of the queue starts only when fewer than `W` jobs are running,
and a running job may finish. -/
inductive PoolStep (W : Nat) : PoolState → PoolState → Prop
  | start (s : PoolState) (fid : String) (rest : List String) :
      s.queued = fid :: rest → s.running.length < W →
      PoolStep W s ⟨rest, fid :: s.running⟩
  | finish (s : PoolState) (fid : String) :
      fid ∈ s.running → PoolStep W s ⟨s.queued, s.running.erase fid⟩

/-- Reachability under pool scheduling steps. -/
inductive PoolReach (W : Nat) : PoolState → PoolState → Prop
  | refl (s : PoolState) : PoolReach W s s
  | tail {s t u : PoolState} : PoolReach W s t → PoolStep W t u → PoolReach W s u

/-- C8: starting from any batch of simultaneously submitted jobs (all
queued, none running), every state the transcription pool can reach has
at most `transcription_workers` jobs running concurrently — and that
capacity is the configured value 12. -/
theorem pool_running_bounded (q : List String) (s : PoolState)
    (h : PoolReach transcription_workers ⟨q, []⟩ s) :
    s.running.length ≤ transcription_workers ∧ transcription_workers = 12 := by
  refine ⟨?_, by decide⟩
  induction h with
  | refl => simp
  | tail _ hstep ih =>
    cases hstep with
    | start fid rest hq hlt => simpa using hlt
    | finish fid hmem =>
      exact le_trans (List.Sublist.length_le (List.erase_sublist fid _)) ih

/-- Witness for C8: the initial state of a batch of 24 submitted jobs
(2 × 12) is reachable and satisfies the bound. -/
theorem pool_running_bounded_witness :
    (PoolState.mk ((List.range 24).map toString) []).running.length ≤
        transcription_workers ∧ transcription_workers = 12 :=
  pool_running_bounded ((List.range 24).map toString)
    ⟨(List.range 24).map toString, []⟩ (PoolReach.refl _)

end Phosys
